import Mathlib

/-!
Verification development for the iWorkConverter batch pipeline (main.go).

The Go source is shallowly embedded: external effects (HTTP responses,
converter results, file-system reads and writes, wall-clock reads) are
supplied as explicit input data, and the orchestration logic of
GetIWorkFiles, DownloadFile, SaveFileWithMetadata, ProcessFolder and main
is translated into pure Lean functions over that data.  Time instants are
abstract naturals; rendering of instants (time.Format with RFC 3339) is
modelled by an injective textual rendering, since no claim depends on the
concrete date syntax.  File contents are strings; the local file system is
a map from paths to optional contents.
-/

/-- Model of the local disk: the contents found at each path, or none
when no file exists there. -/
def FS : Type := String → Option String

/-- Effect of writing a file (os.Create followed by writes, or
os.WriteFile): the path now holds the given contents. -/
def FS.set (fs : FS) (p c : String) : FS := fun q => if q = p then some c else fs q

/-- Effect of os.Remove: the path no longer holds a file. -/
def FS.remove (fs : FS) (p : String) : FS := fun q => if q = p then none else fs q

/-- Contents currently at a path. -/
def FS.get? (fs : FS) (p : String) : Option String := fs p

/-- Disk with no files. -/
def FS.empty : FS := fun _ => none

/-- Model of strings.ToLower restricted to the ASCII range: Go applies the
Unicode simple lower-case mapping, which agrees with Char.toLower on every
character occurring in the fixed extension whitelist. -/
def toLowerStr (s : String) : String := String.mk (s.data.map Char.toLower)

/-- Core of filepath.Ext: scan the characters in reverse order, stopping at
a path separator, and return the suffix from the final dot (dot included).
The first argument is the reversed remaining input, the second the already
scanned suffix in original order. -/
def extScan : List Char → List Char → String
  | [], _ => ""
  | c :: rest, acc =>
    if c = '/' then ""
    else if c = '.' then String.mk (c :: acc)
    else extScan rest (c :: acc)

/-- Model of filepath.Ext: the suffix beginning at the final dot in the
final path element, empty when there is no dot. -/
def filepathExt (name : String) : String := extScan name.data.reverse []

/-- Model of strings.TrimSuffix at the character level: when the second
string is a suffix of the first, drop it, otherwise return the first
string unchanged. -/
def trimSuffix (s suffix : String) : String :=
  if suffix.data.isSuffixOf s.data then
    String.mk (s.data.take (s.data.length - suffix.data.length))
  else s

/-- Model of filepath.Join for the two-argument uses in the source.  The
path-cleaning pass of filepath.Join is not modelled: for the directory and
file names handled by the pipeline (no empty components and no dot
segments) Join is plain separator insertion. -/
def filepathJoin (dir name : String) : String := dir ++ "/" ++ name

/-- Remote entry as decoded from the Box folder-items response
(GetIWorkFiles, lines 96..104 of main.go). -/
structure Entry where
  id : String
  name : String
  etype : String
  size : Int
  modifiedAt : Nat
  deriving Repr, DecidableEq

/-- FileInfo record from main.go. -/
structure FileInfo where
  id : String
  name : String
  size : Int
  extension : String
  modifiedAt : Nat
  deriving Repr, DecidableEq

/-- Key set of the supportedExtensions map in GetIWorkFiles (all mapped
values are true, so the map is its key set). -/
def supportedExtensions : List String :=
  [".pages", ".numbers", ".keynote", ".key", ".nmbrs"]

/-- Conversion of an accepted entry to the FileInfo appended by the
GetIWorkFiles loop. -/
def toFileInfo (e : Entry) : FileInfo :=
  { id := e.id, name := e.name, size := e.size
    extension := toLowerStr (filepathExt e.name), modifiedAt := e.modifiedAt }

/-- Acceptance condition of the GetIWorkFiles filter loop: the entry is a
file and the lower-cased extension of its name is a supported key. -/
def isSupported (e : Entry) : Bool :=
  e.etype == "file" && supportedExtensions.contains (toLowerStr (filepathExt e.name))

/-- Filter loop of GetIWorkFiles (lines 119..132 of main.go), translated
with the nested conditionals of the source. -/
def getIWorkFilesFromEntries (entries : List Entry) : List FileInfo :=
  entries.foldl
    (fun acc entry =>
      if entry.etype == "file" then
        if supportedExtensions.contains (toLowerStr (filepathExt entry.name)) then
          acc ++ [toFileInfo entry]
        else acc
      else acc)
    []

/-- Outcome of the folder-items HTTP exchange, covering every exit of
GetIWorkFiles before the filter loop. -/
inductive ListingResult where
  | reqError (msg : String)
  | transportErr (msg : String)
  | statusErr (status : String)
  | decodeErr (msg : String)
  | ok (entries : List Entry)
  deriving Repr, DecidableEq

/-- GetIWorkFiles (lines 75..136 of main.go): error construction for each
failing exit, filter loop on success. -/
def getIWorkFiles : ListingResult → Except String (List FileInfo)
  | .reqError m => .error ("failed to create request: " ++ m)
  | .transportErr m => .error ("failed to make request: " ++ m)
  | .statusErr s => .error ("Box API error: " ++ s)
  | .decodeErr m => .error ("failed to decode response: " ++ m)
  | .ok entries => .ok (getIWorkFilesFromEntries entries)

/-- Progress of one DownloadFile call: how far the request, the temp-file
creation and the body copy got.  The copyErr case is the one where the
temp file has already been created when the call fails. -/
inductive DownloadAttempt where
  | reqError (msg : String)
  | transportErr (msg : String)
  | statusErr (status : String)
  | createErr (msg : String)
  | copyErr (msg : String)
  | ok
  deriving Repr, DecidableEq

/-- DownloadFile (lines 139..177 of main.go): the returned path or the
error built at each failing exit. -/
def downloadFile (tempDir filename : String) : DownloadAttempt → Except String String
  | .reqError m => .error ("failed to create download request: " ++ m)
  | .transportErr m => .error ("failed to download file: " ++ m)
  | .statusErr s => .error ("download failed with status: " ++ s)
  | .createErr m => .error ("failed to create temp file: " ++ m)
  | .copyErr m => .error ("failed to write file: " ++ m)
  | .ok => .ok (filepathJoin tempDir filename)

/-- Attempts during which os.Create has already produced the temp file:
only the body-copy failure and full success. -/
def scratchWritten : DownloadAttempt → Bool
  | .copyErr _ => true
  | .ok => true
  | _ => false

/-- ProcessedFile record from main.go.  ProcessTime is stored by the
source as the textual rendering of the elapsed duration; the duration
itself (record instant minus iteration start instant) is kept here. -/
structure ProcessedFile where
  originalFile : String
  outputPath : String
  fileSize : Int
  processTime : Int
  deriving Repr, DecidableEq

/-- ProcessingSummary record from main.go.  StartTime and EndTime are
abstract instants; the zero instant 0 plays the role of the zero value of
time.Time, and the zero duration that of time.Duration zero value. -/
structure ProcessingSummary where
  totalFiles : Nat
  successful : Nat
  failed : Nat
  errors : List String
  processedFiles : List ProcessedFile
  startTime : Nat
  endTime : Nat
  duration : Int
  deriving Repr, DecidableEq

/-- Processor configuration (IWorkProcessor minus the HTTP client). -/
structure IWorkProcessor where
  tempDir : String
  outputDir : String
  format : String
  deriving Repr, DecidableEq

/-- Outcome of the delegated converter invocation for one candidate: on
success the raw bytes the converter wrote to the output path. -/
inductive ConvertOutcome where
  | ok (content : String)
  | err (msg : String)
  deriving Repr, DecidableEq

/-- Outcome of the two file-system operations inside SaveFileWithMetadata
for text format: reading the converted file and rewriting it. -/
inductive EnrichOutcome where
  | readErr (msg : String)
  | writeErr (msg : String)
  | ok
  deriving Repr, DecidableEq

/-- Environment of one loop iteration of ProcessFolder: the download
progress with the bytes that reached the temp file, the converter
outcome, the enrichment outcomes, and the instants returned by the three
wall-clock reads of the iteration (processStart, the enrichment
timestamp, and the time.Since read when the record is built). -/
structure CandOutcome where
  download : DownloadAttempt
  downloadBytes : String
  convert : ConvertOutcome
  enrich : EnrichOutcome
  startT : Nat
  extractT : Nat
  recordT : Nat
  deriving Repr, DecidableEq

def defaultOutcome : CandOutcome :=
  { download := .reqError "", downloadBytes := "", convert := .err ""
    enrich := .ok, startT := 0, extractT := 0, recordT := 0 }

/-- Separator written between the metadata header and the content:
strings.Repeat of the dash, 50 times. -/
def separatorLine : String := String.mk (List.replicate 50 '-')

/-- Rendering of an abstract instant, standing in for time.Format with
the RFC 3339 layout; any injective rendering is adequate because no claim
depends on the concrete date syntax. -/
def formatRFC3339 (t : Nat) : String := Nat.repr t

/-- Content written by SaveFileWithMetadata in text mode (lines 221..231
of main.go): six header lines, the blank line written by the lone newline
at line 228, the separator, the two newlines of line 230, then the
converted content. -/
def enrichedContent (meta : FileInfo) (extractT : Nat) (converted : String) : String :=
  "# Extracted from: " ++ meta.name ++ "\n" ++
  "# File ID: " ++ meta.id ++ "\n" ++
  "# Size: " ++ toString meta.size ++ " bytes\n" ++
  "# Modified: " ++ formatRFC3339 meta.modifiedAt ++ "\n" ++
  "# Extracted: " ++ formatRFC3339 extractT ++ "\n" ++
  "# Extension: " ++ meta.extension ++ "\n" ++
  "\n" ++ separatorLine ++ "\n\n" ++ converted

/-- SaveFileWithMetadata (lines 208..241 of main.go): identity on the
file system for non-text format; for text format, read the converted
file, prepend the header, rewrite in place. -/
def saveFileWithMetadata (p : IWorkProcessor) (meta : FileInfo)
    (convertedPath : String) (extractT : Nat) (enrichRes : EnrichOutcome)
    (fs : FS) : Except String (String × FS) :=
  if p.format != "txt" then .ok (convertedPath, fs)
  else
    match enrichRes with
    | .readErr m => .error ("failed to read converted file: " ++ m)
    | .writeErr m => .error ("failed to write enhanced file: " ++ m)
    | .ok =>
      let converted := (fs.get? convertedPath).getD ""
      .ok (convertedPath, fs.set convertedPath (enrichedContent meta extractT converted))

/-- Output path computed at lines 277..284 of main.go: the base name with
the extension stripped, the format-dependent suffix, joined under the
output directory. -/
def outputPath (p : IWorkProcessor) (name : String) : String :=
  let baseName := trimSuffix name (filepathExt name)
  if p.format == "txt" then filepathJoin p.outputDir (baseName ++ "_extracted.txt")
  else filepathJoin p.outputDir (baseName ++ "_converted.html")

/-- Mutable state of the ProcessFolder loop: local disk plus the summary
being accumulated. -/
structure LoopState where
  fs : FS
  summary : ProcessingSummary

/-- One iteration of the ProcessFolder loop (lines 265..313 of main.go)
for candidate fi under environment o. -/
def processOne (p : IWorkProcessor) (st : LoopState) (fi : FileInfo)
    (o : CandOutcome) : LoopState :=
  let tempPath := filepathJoin p.tempDir fi.name
  match downloadFile p.tempDir fi.name o.download with
  | .error e =>
    { fs := if scratchWritten o.download then st.fs.set tempPath o.downloadBytes else st.fs
      summary := { st.summary with
        failed := st.summary.failed + 1
        errors := st.summary.errors ++ ["Failed to download " ++ fi.name ++ ": " ++ e] } }
  | .ok localPath =>
    let fs1 := st.fs.set localPath o.downloadBytes
    let outPath := outputPath p fi.name
    match o.convert with
    | .err m =>
      { fs := fs1.remove localPath
        summary := { st.summary with
          failed := st.summary.failed + 1
          errors := st.summary.errors ++ ["Failed to convert " ++ fi.name ++ ": " ++ m] } }
    | .ok c =>
      let fs2 := fs1.set outPath c
      match saveFileWithMetadata p fi outPath o.extractT o.enrich fs2 with
      | .error m =>
        { fs := fs2.remove localPath
          summary := { st.summary with
            failed := st.summary.failed + 1
            errors := st.summary.errors ++
              ["Failed to save enhanced file for " ++ fi.name ++ ": " ++ m] } }
      | .ok (finalPath, fs3) =>
        { fs := fs3.remove localPath
          summary := { st.summary with
            successful := st.summary.successful + 1
            processedFiles := st.summary.processedFiles ++
              [{ originalFile := fi.name, outputPath := finalPath
                 fileSize := fi.size
                 processTime := (o.recordT : Int) - (o.startT : Int) }] } }

/-- The ProcessFolder loop over the candidate list, consuming one
environment entry per candidate. -/
def processList (p : IWorkProcessor) :
    List FileInfo → List CandOutcome → LoopState → LoopState
  | [], _, st => st
  | fi :: rest, os, st =>
    processList p rest os.tail (processOne p st fi (os.headD defaultOutcome))

/-- ProcessFolder (lines 244..319 of main.go).  startT is the instant of
the time.Now call at line 246, endT that of the call at line 315; the
second component is the error returned alongside the summary. -/
def processFolder (p : IWorkProcessor) (startT endT : Nat)
    (listing : ListingResult) (os : List CandOutcome) (fs0 : FS) :
    LoopState × Option String :=
  let s0 : ProcessingSummary :=
    { totalFiles := 0, successful := 0, failed := 0, errors := []
      processedFiles := [], startTime := startT, endTime := 0, duration := 0 }
  match getIWorkFiles listing with
  | .error e => ({ fs := fs0, summary := s0 }, some ("failed to get iWork files: " ++ e))
  | .ok files =>
    let s1 := { s0 with totalFiles := files.length }
    if files.isEmpty then ({ fs := fs0, summary := s1 }, none)
    else
      let st := processList p files os { fs := fs0, summary := s1 }
      ({ st with summary := { st.summary with
           endTime := endT, duration := (endT : Int) - (startT : Int) } }, none)

/-- Observable outcome of the Box branch of main (lines 467..499): either
the run was aborted by log.Fatalf because ProcessFolder returned an
error, or it completed and GenerateReport was invoked (reportOk telling
whether the report write itself succeeded). -/
inductive RunResult where
  | aborted (msg : String)
  | completed (st : LoopState) (reportWritten : Bool)

/-- Box branch of main after setup: run ProcessFolder, abort through
log.Fatalf on error, otherwise generate the report. -/
def runBox (p : IWorkProcessor) (startT endT : Nat) (listing : ListingResult)
    (os : List CandOutcome) (fs0 : FS) (reportOk : Bool) : RunResult :=
  match processFolder p startT endT listing os fs0 with
  | (_, some e) => .aborted ("Processing failed: " ++ e)
  | (st, none) => .completed st reportOk

/-- Failure message recorded for a candidate, read off the branch
structure of the loop body: the download wrap at line 273, the convert
wrap at line 290, the enrichment wrap at line 300, or none on success. -/
def candidateError (p : IWorkProcessor) (fi : FileInfo) (o : CandOutcome) : Option String :=
  match downloadFile p.tempDir fi.name o.download with
  | .error e => some ("Failed to download " ++ fi.name ++ ": " ++ e)
  | .ok _ =>
    match o.convert with
    | .err m => some ("Failed to convert " ++ fi.name ++ ": " ++ m)
    | .ok _ =>
      if p.format != "txt" then none
      else
        match o.enrich with
        | .readErr m =>
          some ("Failed to save enhanced file for " ++ fi.name ++ ": " ++
            ("failed to read converted file: " ++ m))
        | .writeErr m =>
          some ("Failed to save enhanced file for " ++ fi.name ++ ": " ++
            ("failed to write enhanced file: " ++ m))
        | .ok => none

/-- ProcessingRecord appended for a successful candidate. -/
def candidateRecord (p : IWorkProcessor) (fi : FileInfo) (o : CandOutcome) : ProcessedFile :=
  { originalFile := fi.name, outputPath := outputPath p fi.name
    fileSize := fi.size, processTime := (o.recordT : Int) - (o.startT : Int) }

/-! Concrete fixtures used by witnesses and counterexamples. -/

/-- Text-format processor configuration with the default directories. -/
def pText : IWorkProcessor :=
  { tempDir := "./temp", outputDir := "./extracted", format := "txt" }

/-- Markup-format processor configuration with the default directories. -/
def pHtml : IWorkProcessor :=
  { tempDir := "./temp", outputDir := "./extracted", format := "html" }

/-- Loop state at the start of a run over two candidates: empty disk,
freshly initialised summary. -/
def stTwo : LoopState :=
  { fs := FS.empty
    summary := { totalFiles := 2, successful := 0, failed := 0, errors := []
                 processedFiles := [], startTime := 1, endTime := 0, duration := 0 } }

/-- Candidate corresponding to the Doc1.pages scenario entry. -/
def fiDoc1 : FileInfo :=
  { id := "1", name := "Doc1.pages", size := 1024, extension := ".pages", modifiedAt := 3 }

/-- Candidate corresponding to the Doc2.numbers scenario entry. -/
def fiDoc2 : FileInfo :=
  { id := "2", name := "Doc2.numbers", size := 2048, extension := ".numbers", modifiedAt := 4 }

/-- Iteration environment in which every step succeeds and the converter
produces the text Hello. -/
def oAllOk : CandOutcome :=
  { download := .ok, downloadBytes := "PKiwork", convert := .ok "Hello"
    enrich := .ok, startT := 2, extractT := 3, recordT := 4 }

/-- Iteration environment in which the download body copy fails after the
temp file has been created. -/
def oCopyFail : CandOutcome :=
  { download := .copyErr "connection reset", downloadBytes := "PK"
    convert := .err "", enrich := .ok, startT := 2, extractT := 3, recordT := 4 }

/-- Iteration environment in which the download transport fails before
anything is written locally. -/
def oDlFail : CandOutcome :=
  { download := .transportErr "connection refused", downloadBytes := ""
    convert := .err "", enrich := .ok, startT := 2, extractT := 3, recordT := 4 }

/-- Remote entry for Doc1.pages from the spec scenario. -/
def entryDoc1 : Entry :=
  { id := "1", name := "Doc1.pages", etype := "file", size := 1024, modifiedAt := 3 }

/-- Remote entry for a non-candidate image file from the spec scenario. -/
def entryImage : Entry :=
  { id := "9", name := "Image.png", etype := "file", size := 512, modifiedAt := 6 }

/-- HTTP status line of an unauthorized response, as rendered into
resp.Status by the Go HTTP client. -/
def unauthorizedStatus : String := "401 Unauthorized"

/-- Joining of a list of lines with single newline separators; used to
state the line layout of the text-mode output. -/
def joinLines : List String → String
  | [] => ""
  | [l] => l
  | l :: ls => l ++ "\n" ++ joinLines ls

/-- Metadata of the Report.pages scenario file. -/
def metaReport : FileInfo :=
  { id := "77", name := "Report.pages", size := 1024, extension := ".pages", modifiedAt := 7 }

/-! Helper lemmas about the file-system model, the per-iteration step and
the processing loop.  These are shared infrastructure for the claim
theorems below. -/

theorem FS.get?_remove_self (fs : FS) (p : String) : (fs.remove p).get? p = none := by
  simp [FS.remove, FS.get?]

theorem FS.get?_remove_ne (fs : FS) (p q : String) (h : q ≠ p) :
    (fs.remove p).get? q = fs.get? q := by
  simp [FS.remove, FS.get?, h]

theorem FS.get?_set_self (fs : FS) (p c : String) : (fs.set p c).get? p = some c := by
  simp [FS.set, FS.get?]

theorem FS.get?_set_ne (fs : FS) (p c : String) (q : String) (h : q ≠ p) :
    (fs.set p c).get? q = fs.get? q := by
  simp [FS.set, FS.get?, h]

theorem processOne_summary (p : IWorkProcessor) (st : LoopState) (fi : FileInfo)
    (o : CandOutcome) :
    (processOne p st fi o).summary =
      { st.summary with
        successful := st.summary.successful +
          (match candidateError p fi o with | none => 1 | some _ => 0)
        failed := st.summary.failed +
          (match candidateError p fi o with | none => 0 | some _ => 1)
        errors := st.summary.errors ++ (candidateError p fi o).toList
        processedFiles := st.summary.processedFiles ++
          (match candidateError p fi o with
           | none => [candidateRecord p fi o]
           | some _ => []) } := by
  unfold processOne candidateError candidateRecord saveFileWithMetadata
  cases o.download <;> cases hc : o.convert <;>
    by_cases hf : p.format = "txt" <;>
    cases he : o.enrich <;>
    simp [downloadFile, hf, hc, he]

theorem processOne_const (p : IWorkProcessor) (st : LoopState) (fi : FileInfo)
    (o : CandOutcome) :
    (processOne p st fi o).summary.totalFiles = st.summary.totalFiles
    ∧ (processOne p st fi o).summary.startTime = st.summary.startTime
    ∧ (processOne p st fi o).summary.endTime = st.summary.endTime
    ∧ (processOne p st fi o).summary.duration = st.summary.duration := by
  rw [processOne_summary]
  exact ⟨rfl, rfl, rfl, rfl⟩

theorem processOne_step (p : IWorkProcessor) (st : LoopState) (fi : FileInfo)
    (o : CandOutcome) :
    (processOne p st fi o).summary.successful + (processOne p st fi o).summary.failed
      = st.summary.successful + st.summary.failed + 1
    ∧ (processOne p st fi o).summary.processedFiles.length + st.summary.successful
      = st.summary.processedFiles.length + (processOne p st fi o).summary.successful
    ∧ (processOne p st fi o).summary.errors.length + st.summary.failed
      = st.summary.errors.length + (processOne p st fi o).summary.failed := by
  rw [processOne_summary]
  cases candidateError p fi o <;>
    (try simp only [Option.toList, List.append_nil, List.length_append,
      List.length_cons, List.length_nil]) <;> omega

theorem processList_counts (p : IWorkProcessor) :
    ∀ (files : List FileInfo) (os : List CandOutcome) (st : LoopState),
    (processList p files os st).summary.totalFiles = st.summary.totalFiles
    ∧ (processList p files os st).summary.startTime = st.summary.startTime
    ∧ (processList p files os st).summary.endTime = st.summary.endTime
    ∧ (processList p files os st).summary.duration = st.summary.duration
    ∧ (processList p files os st).summary.successful + (processList p files os st).summary.failed
        = st.summary.successful + st.summary.failed + files.length
    ∧ (processList p files os st).summary.processedFiles.length + st.summary.successful
        = st.summary.processedFiles.length + (processList p files os st).summary.successful
    ∧ (processList p files os st).summary.errors.length + st.summary.failed
        = st.summary.errors.length + (processList p files os st).summary.failed := by
  intro files
  induction files with
  | nil => intro os st; simp [processList]
  | cons fi rest ih =>
    intro os st
    obtain ⟨i1, i2, i3, i4, i5, i6, i7⟩ :=
      ih os.tail (processOne p st fi (os.headD defaultOutcome))
    obtain ⟨c1, c2, c3, c4⟩ := processOne_const p st fi (os.headD defaultOutcome)
    obtain ⟨s1, s2, s3⟩ := processOne_step p st fi (os.headD defaultOutcome)
    simp only [processList]
    refine ⟨i1.trans c1, i2.trans c2, i3.trans c3, i4.trans c4, ?_, ?_, ?_⟩ <;>
      (try simp only [List.length_cons]) <;> omega

theorem processList_errors (p : IWorkProcessor) :
    ∀ (files : List FileInfo) (os : List CandOutcome) (st : LoopState),
    os.length = files.length →
    (processList p files os st).summary.errors
      = st.summary.errors ++ (files.zip os).filterMap (fun x => candidateError p x.1 x.2) := by
  intro files
  induction files with
  | nil => intro os st _; simp [processList]
  | cons fi rest ih =>
    intro os st h
    cases os with
    | nil => simp at h
    | cons o os' =>
      simp only [processList, List.headD_cons, List.tail_cons, List.zip_cons_cons,
        List.filterMap_cons]
      rw [ih os' _ (by simpa using h), processOne_summary]
      cases candidateError p fi o <;> simp [List.append_assoc]

theorem processList_processedFiles (p : IWorkProcessor) :
    ∀ (files : List FileInfo) (os : List CandOutcome) (st : LoopState),
    os.length = files.length →
    (processList p files os st).summary.processedFiles
      = st.summary.processedFiles ++ (files.zip os).filterMap
          (fun x => match candidateError p x.1 x.2 with
            | none => some (candidateRecord p x.1 x.2)
            | some _ => none) := by
  intro files
  induction files with
  | nil => intro os st _; simp [processList]
  | cons fi rest ih =>
    intro os st h
    cases os with
    | nil => simp at h
    | cons o os' =>
      simp only [processList, List.headD_cons, List.tail_cons, List.zip_cons_cons,
        List.filterMap_cons]
      rw [ih os' _ (by simpa using h), processOne_summary]
      cases candidateError p fi o <;> simp [List.append_assoc]

theorem getIWorkFilesFromEntries_eq (entries : List Entry) :
    getIWorkFilesFromEntries entries = (entries.filter isSupported).map toFileInfo := by
  suffices h : ∀ (l : List Entry) (acc : List FileInfo),
      l.foldl (fun acc entry =>
        if entry.etype == "file" then
          if supportedExtensions.contains (toLowerStr (filepathExt entry.name)) then
            acc ++ [toFileInfo entry]
          else acc
        else acc) acc
      = acc ++ (l.filter isSupported).map toFileInfo by
    simpa [getIWorkFilesFromEntries] using h entries []
  intro l
  induction l with
  | nil => intro acc; simp
  | cons e rest ih =>
    intro acc
    simp only [List.foldl_cons, List.filter_cons]
    rw [ih]
    by_cases h1 : e.etype = "file" <;>
      by_cases h2 : toLowerStr (filepathExt e.name) ∈ supportedExtensions <;>
      simp [isSupported, List.contains, List.elem_iff, h1, h2, List.append_assoc]

theorem string_ext {a b : String} (h : a.data = b.data) : a = b := by
  cases a; cases b; exact congrArg String.mk h

theorem string_empty_append (s : String) : "" ++ s = s := rfl

theorem string_append_cancel_left (pre a b : String) (h : pre ++ a = pre ++ b) : a = b := by
  have hd : pre.data ++ a.data = pre.data ++ b.data := congrArg String.data h
  exact string_ext (List.append_cancel_left hd)

theorem string_first_ne (a b : String) (c d : Char)
    (h1 : a.data.head? = some c) (h2 : b.data.head? = some d) (h3 : c ≠ d) : a ≠ b :=
  fun he => h3 (Option.some.inj ((h1.symm.trans
    (congrArg (fun x : String => x.data.head?) he)).trans h2))

theorem extScan_suffix :
    ∀ (rev acc : List Char), extScan rev acc ≠ "" →
    ∃ l, rev.reverse ++ acc = l ++ (extScan rev acc).data := by
  intro rev
  induction rev with
  | nil => intro acc h; exact absurd rfl h
  | cons c rest ih =>
    intro acc h
    by_cases hc : c = '/'
    · exact absurd (by simp [extScan, hc]) h
    · by_cases hd : c = '.'
      · refine ⟨rest.reverse, ?_⟩
        simp [extScan, hc, hd, List.append_assoc]
      · have h' : extScan rest (c :: acc) ≠ "" := by
          simpa [extScan, hc, hd] using h
        obtain ⟨l, hl⟩ := ih (c :: acc) h'
        refine ⟨l, ?_⟩
        simpa [extScan, hc, hd, List.append_assoc] using hl

theorem filepathExt_suffix (name : String) (h : filepathExt name ≠ "") :
    ∃ l, name.data = l ++ (filepathExt name).data := by
  obtain ⟨l, hl⟩ := extScan_suffix name.data.reverse [] h
  rw [List.reverse_reverse, List.append_nil] at hl
  exact ⟨l, hl⟩

theorem supported_last_char (name : String)
    (h : supportedExtensions.contains (toLowerStr (filepathExt name)) = true) :
    ∃ c, name.data.getLast? = some c ∧
      (c.toLower = 's' ∨ c.toLower = 'e' ∨ c.toLower = 'y') := by
  have hmem : toLowerStr (filepathExt name) ∈ supportedExtensions := by
    simpa [List.contains, List.elem_iff] using h
  have hne : filepathExt name ≠ "" := by
    intro h0
    rw [h0] at hmem
    exact absurd hmem (by decide)
  obtain ⟨l, hl⟩ := filepathExt_suffix name hne
  have hext_ne : (filepathExt name).data ≠ [] := fun hh => hne (string_ext hh)
  have hlast : name.data.getLast? = (filepathExt name).data.getLast? := by
    rw [hl]
    exact List.getLast?_append_of_ne_nil _ hext_ne
  have hsome : ((filepathExt name).data.getLast?).isSome := by
    rw [List.getLast?_isSome]; exact hext_ne
  obtain ⟨c, hc⟩ := Option.isSome_iff_exists.mp hsome
  have hmap : (toLowerStr (filepathExt name)).data.getLast? = some c.toLower := by
    show ((filepathExt name).data.map Char.toLower).getLast? = some c.toLower
    rw [List.getLast?_map, hc]
    rfl
  have h5 : toLowerStr (filepathExt name) = ".pages"
      ∨ toLowerStr (filepathExt name) = ".numbers"
      ∨ toLowerStr (filepathExt name) = ".keynote"
      ∨ toLowerStr (filepathExt name) = ".key"
      ∨ toLowerStr (filepathExt name) = ".nmbrs" := by
    simpa [supportedExtensions] using hmem
  refine ⟨c, hlast.trans hc, ?_⟩
  rcases h5 with h5 | h5 | h5 | h5 | h5 <;> rw [h5] at hmap <;>
    [ exact Or.inl (Option.some.inj hmap).symm;
      exact Or.inl (Option.some.inj hmap).symm;
      exact Or.inr (Or.inl (Option.some.inj hmap).symm);
      exact Or.inr (Or.inr (Option.some.inj hmap).symm);
      exact Or.inl (Option.some.inj hmap).symm ]

theorem tempPath_ne_outputPath (p : IWorkProcessor) (name : String)
    (hsup : supportedExtensions.contains (toLowerStr (filepathExt name)) = true) :
    filepathJoin p.tempDir name ≠ outputPath p name := by
  obtain ⟨c, hc, hl⟩ := supported_last_char name hsup
  intro h
  have hname_ne : name.data ≠ [] := by
    intro hh
    rw [hh] at hc
    simp at hc
  have hLHS : (filepathJoin p.tempDir name).data.getLast? = some c := by
    show ((p.tempDir ++ "/") ++ name).data.getLast? = some c
    rw [String.data_append, List.getLast?_append_of_ne_nil _ hname_ne]
    exact hc
  have hdata := congrArg (fun s : String => s.data.getLast?) h
  simp only [hLHS] at hdata
  by_cases hf : p.format = "txt"
  · have hsfx : ("_extracted.txt".data : List Char) ≠ [] := by decide
    have hx : (outputPath p name).data
        = (p.outputDir.data ++ '/' :: (trimSuffix name (filepathExt name)).data)
          ++ "_extracted.txt".data := by
      simp [outputPath, hf, filepathJoin, List.append_assoc]
    have hRHS : (outputPath p name).data.getLast? = some 't' := by
      rw [hx, List.getLast?_append_of_ne_nil _ hsfx]
      decide
    have hct : c = 't' := Option.some.inj (hdata.trans hRHS)
    subst hct
    rcases hl with hl | hl | hl <;> exact absurd hl (by decide)
  · have hsfx : ("_converted.html".data : List Char) ≠ [] := by decide
    have hx : (outputPath p name).data
        = (p.outputDir.data ++ '/' :: (trimSuffix name (filepathExt name)).data)
          ++ "_converted.html".data := by
      simp [outputPath, hf, filepathJoin, List.append_assoc]
    have hRHS : (outputPath p name).data.getLast? = some 'l' := by
      rw [hx, List.getLast?_append_of_ne_nil _ hsfx]
      decide
    have hct : c = 'l' := Option.some.inj (hdata.trans hRHS)
    subst hct
    rcases hl with hl | hl | hl <;> exact absurd hl (by decide)

/-- Claim C1: in every run of ProcessFolder, successful plus failed equals
totalFiles, the processed-files list has length successful, the error list
has length failed, and each candidate iteration appends exactly one
processing record or exactly one error message, never both and never
neither. -/
theorem c1_exactly_once_accounting :
    (∀ (p : IWorkProcessor) (startT endT : Nat) (listing : ListingResult)
       (os : List CandOutcome) (fs0 : FS),
      (processFolder p startT endT listing os fs0).1.summary.successful
        + (processFolder p startT endT listing os fs0).1.summary.failed
        = (processFolder p startT endT listing os fs0).1.summary.totalFiles
      ∧ (processFolder p startT endT listing os fs0).1.summary.processedFiles.length
        = (processFolder p startT endT listing os fs0).1.summary.successful
      ∧ (processFolder p startT endT listing os fs0).1.summary.errors.length
        = (processFolder p startT endT listing os fs0).1.summary.failed)
    ∧ (∀ (p : IWorkProcessor) (st : LoopState) (fi : FileInfo) (o : CandOutcome),
      (candidateError p fi o = none
        ∧ (processOne p st fi o).summary.processedFiles
            = st.summary.processedFiles ++ [candidateRecord p fi o]
        ∧ (processOne p st fi o).summary.errors = st.summary.errors)
      ∨ (∃ m, candidateError p fi o = some m
        ∧ (processOne p st fi o).summary.processedFiles = st.summary.processedFiles
        ∧ (processOne p st fi o).summary.errors = st.summary.errors ++ [m])) := by
  constructor
  · intro p startT endT listing os fs0
    cases listing with
    | ok entries =>
      simp only [processFolder, getIWorkFiles]
      by_cases he : getIWorkFilesFromEntries entries = []
      · simp [he]
      · obtain ⟨i1, i2, i3, i4, i5, i6, i7⟩ := processList_counts p
          (getIWorkFilesFromEntries entries) os
          { fs := fs0
            summary := { totalFiles := (getIWorkFilesFromEntries entries).length
                         successful := 0, failed := 0, errors := [], processedFiles := []
                         startTime := startT, endTime := 0, duration := 0 } }
        simp only [List.isEmpty_iff, he, if_false]
        refine ⟨?_, ?_, ?_⟩ <;> simp_all
    | reqError m => simp [processFolder, getIWorkFiles]
    | transportErr m => simp [processFolder, getIWorkFiles]
    | statusErr s => simp [processFolder, getIWorkFiles]
    | decodeErr m => simp [processFolder, getIWorkFiles]
  · intro p st fi o
    have h := processOne_summary p st fi o
    cases hce : candidateError p fi o with
    | none => exact Or.inl ⟨rfl, by rw [h, hce], by rw [h, hce]; simp⟩
    | some m => exact Or.inr ⟨m, rfl, by rw [h, hce]; simp, by rw [h, hce]; simp⟩

/-- Claim C2 counterexample: a candidate iteration whose download fails
during the body copy, after os.Create has produced the temp file, ends
with the scratch file still on disk, refuting the claim that the scratch
file never outlives its processing iteration for every outcome mixture. -/
theorem c2_counterexample_scratch_survives :
    (processOne pText stTwo fiDoc2 oCopyFail).fs.get? "./temp/Doc2.numbers" = some "PK" := by
  decide

/-- Claim C2 as amended: whenever DownloadFile returns success the scratch
file is gone from disk at the end of the iteration for every mixture of
conversion and enrichment outcomes; whenever DownloadFile fails before
creating the temp file the disk is untouched; but when the body copy fails
after creation, the incompletely written scratch file remains. -/
theorem c2_amended_scratch_cleanup :
    ∀ (p : IWorkProcessor) (st : LoopState) (fi : FileInfo) (o : CandOutcome),
    (o.download = .ok →
      (processOne p st fi o).fs.get? (filepathJoin p.tempDir fi.name) = none)
    ∧ (∀ m, (o.download = .reqError m ∨ o.download = .transportErr m
         ∨ o.download = .statusErr m ∨ o.download = .createErr m) →
        (processOne p st fi o).fs = st.fs)
    ∧ (∀ m, o.download = .copyErr m →
        (processOne p st fi o).fs
          = st.fs.set (filepathJoin p.tempDir fi.name) o.downloadBytes) := by
  intro p st fi o
  refine ⟨?_, ?_, ?_⟩
  · intro h
    unfold processOne
    rw [h]
    cases hc : o.convert <;> by_cases hf : p.format = "txt" <;> cases he : o.enrich <;>
      simp [downloadFile, saveFileWithMetadata, hf, he, FS.get?_remove_self]
  · intro m hm
    unfold processOne
    rcases hm with h | h | h | h <;> rw [h] <;>
      simp [downloadFile, scratchWritten]
  · intro m h
    unfold processOne
    rw [h]
    simp [downloadFile, scratchWritten]

/-- Claim C2 witness: concrete instances of the amended cleanup statement,
obtained by instantiating the theorem. -/
theorem c2_amended_scratch_cleanup_witness :
    (processOne pText stTwo fiDoc1 oAllOk).fs.get?
      (filepathJoin pText.tempDir fiDoc1.name) = none
    ∧ (processOne pText stTwo fiDoc2 oDlFail).fs = stTwo.fs :=
  ⟨(c2_amended_scratch_cleanup pText stTwo fiDoc1 oAllOk).1 rfl,
   (c2_amended_scratch_cleanup pText stTwo fiDoc2 oDlFail).2.1 "connection refused"
     (Or.inr (Or.inl rfl))⟩

set_option maxRecDepth 8192 in
/-- Claim C3 counterexample: at the Report.pages scenario input the text
output does not consist of the six header lines immediately followed by
the 50-dash separator, blank line and content; the code inserts an extra
blank line between the headers and the separator, shown by the second
conjunct. -/
theorem c3_counterexample_extra_blank_line :
    enrichedContent metaReport 9 "Hello"
      ≠ "# Extracted from: Report.pages\n# File ID: 77\n# Size: 1024 bytes\n# Modified: 7\n# Extracted: 9\n# Extension: .pages\n"
          ++ separatorLine ++ "\n\n" ++ "Hello"
    ∧ enrichedContent metaReport 9 "Hello"
      = "# Extracted from: Report.pages\n# File ID: 77\n# Size: 1024 bytes\n# Modified: 7\n# Extracted: 9\n# Extension: .pages\n\n"
          ++ separatorLine ++ "\n\n" ++ "Hello" := by
  constructor
  · decide
  · decide

/-- Claim C3 as amended: every successfully enriched text-mode output
consists of the six header lines in the claimed order, then one blank
line, then the 50-character separator line, then a blank line, then the
converted content; and in the text-format success path of the loop the
output file on disk holds exactly that enriched content applied to the
raw converter output. -/
theorem c3_text_header_layout :
    ∀ (meta : FileInfo) (t : Nat) (converted : String),
    enrichedContent meta t converted
      = joinLines ["# Extracted from: " ++ meta.name,
                   "# File ID: " ++ meta.id,
                   "# Size: " ++ toString meta.size ++ " bytes",
                   "# Modified: " ++ formatRFC3339 meta.modifiedAt,
                   "# Extracted: " ++ formatRFC3339 t,
                   "# Extension: " ++ meta.extension,
                   "", separatorLine, "", converted]
    ∧ separatorLine.length = 50
    ∧ (∀ (p : IWorkProcessor) (st : LoopState) (fi : FileInfo) (o : CandOutcome) (c : String),
        p.format = "txt" → o.download = .ok → o.convert = .ok c → o.enrich = .ok →
        supportedExtensions.contains (toLowerStr (filepathExt fi.name)) = true →
        (processOne p st fi o).fs.get? (outputPath p fi.name)
          = some (enrichedContent fi o.extractT c)) := by
  intro meta t converted
  refine ⟨?_, by decide, ?_⟩
  · simp only [enrichedContent, joinLines]
    rw [show (" bytes\n" : String) = " bytes" ++ "\n" from rfl,
        show ("\n\n" : String) = "\n" ++ "\n" from rfl]
    simp only [String.append_assoc, string_empty_append]
  · intro p st fi o c hf hdl hcv hen hsup
    unfold processOne
    rw [hdl, hcv]
    simp only [downloadFile, saveFileWithMetadata, hf, hen, bne_self_eq_false,
      Bool.false_eq_true, if_false, FS.get?_set_self, Option.getD_some]
    rw [FS.get?_remove_ne _ _ _ (Ne.symm (tempPath_ne_outputPath p fi.name hsup))]
    exact FS.get?_set_self _ _ _

/-- Claim C3 witness: the amended layout statement instantiated at the
Doc1.pages candidate with converter output Hello. -/
theorem c3_text_header_layout_witness :
    (processOne pText stTwo fiDoc1 oAllOk).fs.get? (outputPath pText fiDoc1.name)
      = some (enrichedContent fiDoc1 oAllOk.extractT "Hello") :=
  (c3_text_header_layout fiDoc1 3 "Hello").2.2 pText stTwo fiDoc1 oAllOk "Hello"
    rfl rfl rfl rfl (by decide)

/-- Claim C4: an unauthorized failure (HTTP status 401 Unauthorized) of
the listing call or of a per-file download yields a result distinguishable
from the result of any other non-2xx status, any transport or decoding or
request-construction failure, and from success, for both operations. -/
theorem c4_unauthorized_distinguishable :
    ∀ (s m : String) (entries : List Entry) (td fn : String),
    s ≠ unauthorizedStatus →
    (getIWorkFiles (.statusErr unauthorizedStatus) ≠ getIWorkFiles (.statusErr s)
     ∧ getIWorkFiles (.statusErr unauthorizedStatus) ≠ getIWorkFiles (.transportErr m)
     ∧ getIWorkFiles (.statusErr unauthorizedStatus) ≠ getIWorkFiles (.reqError m)
     ∧ getIWorkFiles (.statusErr unauthorizedStatus) ≠ getIWorkFiles (.decodeErr m)
     ∧ getIWorkFiles (.statusErr unauthorizedStatus) ≠ getIWorkFiles (.ok entries))
    ∧ (downloadFile td fn (.statusErr unauthorizedStatus) ≠ downloadFile td fn (.statusErr s)
     ∧ downloadFile td fn (.statusErr unauthorizedStatus) ≠ downloadFile td fn (.transportErr m)
     ∧ downloadFile td fn (.statusErr unauthorizedStatus) ≠ downloadFile td fn (.reqError m)
     ∧ downloadFile td fn (.statusErr unauthorizedStatus) ≠ downloadFile td fn (.createErr m)
     ∧ downloadFile td fn (.statusErr unauthorizedStatus) ≠ downloadFile td fn (.copyErr m)
     ∧ downloadFile td fn (.statusErr unauthorizedStatus) ≠ downloadFile td fn .ok) := by
  intro s m entries td fn hs
  refine ⟨⟨?_, ?_, ?_, ?_, ?_⟩, ?_, ?_, ?_, ?_, ?_, ?_⟩
  · simp only [getIWorkFiles, ne_eq, Except.error.injEq]
    intro h
    exact hs (string_append_cancel_left _ _ _ h).symm
  · simp only [getIWorkFiles, ne_eq, Except.error.injEq]
    exact string_first_ne _ _ 'B' 'f' rfl rfl (by decide)
  · simp only [getIWorkFiles, ne_eq, Except.error.injEq]
    exact string_first_ne _ _ 'B' 'f' rfl rfl (by decide)
  · simp only [getIWorkFiles, ne_eq, Except.error.injEq]
    exact string_first_ne _ _ 'B' 'f' rfl rfl (by decide)
  · simp [getIWorkFiles]
  · simp only [downloadFile, ne_eq, Except.error.injEq]
    intro h
    exact hs (string_append_cancel_left _ _ _ h).symm
  · simp only [downloadFile, ne_eq, Except.error.injEq]
    exact string_first_ne _ _ 'd' 'f' rfl rfl (by decide)
  · simp only [downloadFile, ne_eq, Except.error.injEq]
    exact string_first_ne _ _ 'd' 'f' rfl rfl (by decide)
  · simp only [downloadFile, ne_eq, Except.error.injEq]
    exact string_first_ne _ _ 'd' 'f' rfl rfl (by decide)
  · simp only [downloadFile, ne_eq, Except.error.injEq]
    exact string_first_ne _ _ 'd' 'f' rfl rfl (by decide)
  · simp [downloadFile]

/-- Claim C4 witness: distinguishability instantiated at a concrete
non-unauthorized status and transport failure. -/
theorem c4_unauthorized_distinguishable_witness :
    getIWorkFiles (.statusErr unauthorizedStatus)
      ≠ getIWorkFiles (.statusErr "404 Not Found")
    ∧ downloadFile "./temp" "Doc1.pages" (.statusErr unauthorizedStatus)
      ≠ downloadFile "./temp" "Doc1.pages" (.transportErr "timeout") :=
  ⟨(c4_unauthorized_distinguishable "404 Not Found" "timeout" [] "./temp" "Doc1.pages"
      (by decide)).1.1,
   (c4_unauthorized_distinguishable "404 Not Found" "timeout" [] "./temp" "Doc1.pages"
      (by decide)).2.2.1⟩

/-- Claim C5: a listing failure aborts the run through log.Fatalf before
any candidate is processed and before any report is produced, leaving the
disk and the summary untouched, whereas a run whose listing succeeded
never returns an error and always reaches report generation; and a
failure scoped to one candidate only appends its message to the error
list, increments the failure count, and lets the loop continue with the
remaining candidates. -/
theorem c5_listing_fatal_candidate_not :
    (∀ (p : IWorkProcessor) (startT endT : Nat) (os : List CandOutcome)
       (fs0 : FS) (reportOk : Bool) (s : String),
      runBox p startT endT (.statusErr s) os fs0 reportOk
        = .aborted ("Processing failed: " ++
            ("failed to get iWork files: " ++ ("Box API error: " ++ s)))
      ∧ runBox p startT endT (.transportErr s) os fs0 reportOk
        = .aborted ("Processing failed: " ++
            ("failed to get iWork files: " ++ ("failed to make request: " ++ s)))
      ∧ runBox p startT endT (.reqError s) os fs0 reportOk
        = .aborted ("Processing failed: " ++
            ("failed to get iWork files: " ++ ("failed to create request: " ++ s)))
      ∧ runBox p startT endT (.decodeErr s) os fs0 reportOk
        = .aborted ("Processing failed: " ++
            ("failed to get iWork files: " ++ ("failed to decode response: " ++ s)))
      ∧ (processFolder p startT endT (.statusErr s) os fs0).1.fs = fs0
      ∧ (processFolder p startT endT (.statusErr s) os fs0).1.summary.processedFiles = []
      ∧ (processFolder p startT endT (.statusErr s) os fs0).1.summary.errors = []
      ∧ (processFolder p startT endT (.statusErr s) os fs0).1.summary.successful = 0
      ∧ (processFolder p startT endT (.statusErr s) os fs0).1.summary.failed = 0)
    ∧ (∀ (p : IWorkProcessor) (startT endT : Nat) (entries : List Entry)
         (os : List CandOutcome) (fs0 : FS) (reportOk : Bool),
      (processFolder p startT endT (.ok entries) os fs0).2 = none
      ∧ runBox p startT endT (.ok entries) os fs0 reportOk
          = .completed (processFolder p startT endT (.ok entries) os fs0).1 reportOk)
    ∧ (∀ (p : IWorkProcessor) (st : LoopState) (fi : FileInfo) (o : CandOutcome)
         (rest : List FileInfo) (os : List CandOutcome) (m : String),
      candidateError p fi o = some m →
      processList p (fi :: rest) (o :: os) st = processList p rest os (processOne p st fi o)
      ∧ (processOne p st fi o).summary.failed = st.summary.failed + 1
      ∧ (processOne p st fi o).summary.errors = st.summary.errors ++ [m]
      ∧ (processOne p st fi o).summary.successful = st.summary.successful
      ∧ (processOne p st fi o).summary.processedFiles = st.summary.processedFiles) := by
  refine ⟨?_, ?_, ?_⟩
  · intro p startT endT os fs0 reportOk s
    refine ⟨?_, ?_, ?_, ?_, ?_, ?_, ?_, ?_, ?_⟩ <;>
      simp [runBox, processFolder, getIWorkFiles]
  · intro p startT endT entries os fs0 reportOk
    have h2 : (processFolder p startT endT (.ok entries) os fs0).2 = none := by
      simp only [processFolder, getIWorkFiles]
      split <;> rfl
    refine ⟨h2, ?_⟩
    rcases hpf : processFolder p startT endT (.ok entries) os fs0 with ⟨st', e'⟩
    have he' : e' = none := by rw [hpf] at h2; exact h2
    subst he'
    simp [runBox, hpf]
  · intro p st fi o rest os m hce
    refine ⟨by simp [processList], ?_, ?_, ?_, ?_⟩ <;> rw [processOne_summary, hce] <;> simp

/-- Claim C5 witness: the per-candidate clause instantiated at a concrete
candidate whose download transport fails. -/
theorem c5_listing_fatal_candidate_not_witness :
    processList pText [fiDoc2] [oDlFail] stTwo
      = processList pText [] [] (processOne pText stTwo fiDoc2 oDlFail)
    ∧ (processOne pText stTwo fiDoc2 oDlFail).summary.failed = stTwo.summary.failed + 1
    ∧ (processOne pText stTwo fiDoc2 oDlFail).summary.errors
        = stTwo.summary.errors ++
          ["Failed to download Doc2.numbers: " ++ "failed to download file: connection refused"] := by
  have h := c5_listing_fatal_candidate_not.2.2 pText stTwo fiDoc2 oDlFail [] []
    ("Failed to download Doc2.numbers: " ++ "failed to download file: connection refused")
    (by decide)
  exact ⟨h.1, h.2.1, h.2.2.1⟩

/-- Claim C6: when the requested format is not txt, SaveFileWithMetadata
is a no-op returning the converted path and an unchanged disk, and at the
end of a successful markup-mode iteration the output file holds exactly
the raw converter output, with no header injected. -/
theorem c6_markup_enrichment_noop :
    (∀ (p : IWorkProcessor) (meta : FileInfo) (pth : String) (t : Nat)
       (er : EnrichOutcome) (fs : FS),
      p.format ≠ "txt" →
      saveFileWithMetadata p meta pth t er fs = .ok (pth, fs))
    ∧ (∀ (p : IWorkProcessor) (st : LoopState) (fi : FileInfo) (o : CandOutcome) (c : String),
      p.format ≠ "txt" →
      o.download = .ok →
      o.convert = .ok c →
      supportedExtensions.contains (toLowerStr (filepathExt fi.name)) = true →
      (processOne p st fi o).fs.get? (outputPath p fi.name) = some c) := by
  constructor
  · intro p meta pth t er fs hf
    simp [saveFileWithMetadata, hf]
  · intro p st fi o c hf hdl hcv hsup
    unfold processOne
    rw [hdl, hcv]
    simp only [downloadFile, saveFileWithMetadata, bne_iff_ne, ne_eq, hf, not_false_iff,
      if_true]
    rw [FS.get?_remove_ne _ _ _ (Ne.symm (tempPath_ne_outputPath p fi.name hsup))]
    exact FS.get?_set_self _ _ _

/-- Claim C6 witness: the no-op and raw-output statements instantiated at
the markup-format processor and the Doc1.pages candidate. -/
theorem c6_markup_enrichment_noop_witness :
    saveFileWithMetadata pHtml metaReport "./extracted/x.html" 3 .ok FS.empty
      = .ok ("./extracted/x.html", FS.empty)
    ∧ (processOne pHtml stTwo fiDoc1 oAllOk).fs.get? (outputPath pHtml fiDoc1.name)
      = some "Hello" :=
  ⟨c6_markup_enrichment_noop.1 pHtml metaReport "./extracted/x.html" 3 .ok FS.empty
     (by decide),
   c6_markup_enrichment_noop.2 pHtml stTwo fiDoc1 oAllOk "Hello"
     (by decide) rfl rfl (by decide)⟩

/-- Claim C7: the listing filter accepts an entry exactly when its kind is
file and the lower-cased extension of its name lies in the fixed supported
set, which includes the legacy presentation alias .key next to .keynote;
the predicate is a pure function, so applying it twice to the same entry
yields the same boolean. -/
theorem c7_filter_accepts_iff :
    ∀ (e : Entry),
    (isSupported e = true ↔
      e.etype = "file" ∧ toLowerStr (filepathExt e.name) ∈ supportedExtensions)
    ∧ isSupported e = isSupported e
    ∧ ".key" ∈ supportedExtensions ∧ ".keynote" ∈ supportedExtensions := by
  intro e
  refine ⟨?_, rfl, by decide, by decide⟩
  simp [isSupported, List.contains, List.elem_iff]

/-- Claim C7 witness: the acceptance condition read back from the filter
at the concrete Doc1.pages entry. -/
theorem c7_filter_accepts_iff_witness :
    entryDoc1.etype = "file"
    ∧ toLowerStr (filepathExt entryDoc1.name) ∈ supportedExtensions :=
  (c7_filter_accepts_iff entryDoc1).1.mp (by decide)

/-- Claim C8: the conversion output path depends only on the base name
(name with its extension stripped) and the format: two names with equal
base names get equal output paths, and the path is the base name plus
_extracted.txt for text format, plus _converted.html otherwise, joined
under the output directory. -/
theorem c8_output_path_derivation :
    (∀ (p : IWorkProcessor) (n1 n2 : String),
      trimSuffix n1 (filepathExt n1) = trimSuffix n2 (filepathExt n2) →
      outputPath p n1 = outputPath p n2)
    ∧ (∀ (p : IWorkProcessor) (name : String),
      (p.format = "txt" →
        outputPath p name
          = filepathJoin p.outputDir (trimSuffix name (filepathExt name) ++ "_extracted.txt"))
      ∧ (p.format ≠ "txt" →
        outputPath p name
          = filepathJoin p.outputDir (trimSuffix name (filepathExt name) ++ "_converted.html"))) := by
  constructor
  · intro p n1 n2 h
    simp only [outputPath]
    rw [h]
  · intro p name
    constructor <;> intro hf <;> simp [outputPath, hf]

/-- Claim C8 witness: two candidates sharing the base name Doc1 but with
different source extensions receive the same output path. -/
theorem c8_output_path_derivation_witness :
    outputPath pText "Doc1.pages" = outputPath pText "Doc1.numbers"
    ∧ outputPath pText "Doc1.pages" = filepathJoin pText.outputDir ("Doc1" ++ "_extracted.txt") := by
  constructor
  · exact c8_output_path_derivation.1 pText "Doc1.pages" "Doc1.numbers" (by decide)
  · have h := (c8_output_path_derivation.2 pText "Doc1.pages").1 rfl
    rw [h]
    rfl

/-- Claim C9: the filter preserves listing order, since the candidate list
is the order-preserving filter of the entries mapped to FileInfo records,
and both summary lists are the order-preserving projections of the
candidate sequence paired with its iteration outcomes: processed files
collect the records of the successful candidates in discovery order and
errors collect the failure messages in discovery order. -/
theorem c9_discovery_order :
    ∀ (p : IWorkProcessor) (entries : List Entry) (os : List CandOutcome)
      (startT endT : Nat) (fs0 : FS),
    getIWorkFilesFromEntries entries = (entries.filter isSupported).map toFileInfo
    ∧ (os.length = (getIWorkFilesFromEntries entries).length →
        (processFolder p startT endT (.ok entries) os fs0).1.summary.processedFiles
          = ((getIWorkFilesFromEntries entries).zip os).filterMap
              (fun x => match candidateError p x.1 x.2 with
                | none => some (candidateRecord p x.1 x.2)
                | some _ => none)
        ∧ (processFolder p startT endT (.ok entries) os fs0).1.summary.errors
          = ((getIWorkFilesFromEntries entries).zip os).filterMap
              (fun x => candidateError p x.1 x.2)) := by
  intro p entries os startT endT fs0
  refine ⟨getIWorkFilesFromEntries_eq entries, fun hlen => ?_⟩
  simp only [processFolder, getIWorkFiles]
  by_cases he : getIWorkFilesFromEntries entries = []
  · simp [he]
  · have h1 := processList_processedFiles p (getIWorkFilesFromEntries entries) os
      { fs := fs0
        summary := { totalFiles := (getIWorkFilesFromEntries entries).length
                     successful := 0, failed := 0, errors := [], processedFiles := []
                     startTime := startT, endTime := 0, duration := 0 } } hlen
    have h2 := processList_errors p (getIWorkFilesFromEntries entries) os
      { fs := fs0
        summary := { totalFiles := (getIWorkFilesFromEntries entries).length
                     successful := 0, failed := 0, errors := [], processedFiles := []
                     startTime := startT, endTime := 0, duration := 0 } } hlen
    simp only [List.isEmpty_iff, he, if_false]
    constructor
    · simpa using h1
    · simpa using h2

/-- Claim C9 witness: the discovery-order characterisation instantiated at
a two-entry listing in which only Doc1.pages is a candidate. -/
theorem c9_discovery_order_witness :
    getIWorkFilesFromEntries [entryDoc1, entryImage]
      = ([entryDoc1, entryImage].filter isSupported).map toFileInfo
    ∧ (processFolder pText 1 9 (.ok [entryDoc1, entryImage]) [oAllOk] FS.empty).1.summary.processedFiles
      = ((getIWorkFilesFromEntries [entryDoc1, entryImage]).zip [oAllOk]).filterMap
          (fun x => match candidateError pText x.1 x.2 with
            | none => some (candidateRecord pText x.1 x.2)
            | some _ => none)
    ∧ (processFolder pText 1 9 (.ok [entryDoc1, entryImage]) [oAllOk] FS.empty).1.summary.errors
      = ((getIWorkFilesFromEntries [entryDoc1, entryImage]).zip [oAllOk]).filterMap
          (fun x => candidateError pText x.1 x.2) := by
  have h := c9_discovery_order pText [entryDoc1, entryImage] [oAllOk] 1 9 FS.empty
  exact ⟨h.1, (h.2 (by decide)).1, (h.2 (by decide)).2⟩

/-- Claim C10: a successful listing with zero candidates makes
ProcessFolder return early with all counters zero and EndTime and
Duration still at their zero values, with no error, so main still
generates the report. -/
theorem c10_empty_listing_early_return :
    ∀ (p : IWorkProcessor) (startT endT : Nat) (entries : List Entry)
      (os : List CandOutcome) (fs0 : FS),
    getIWorkFilesFromEntries entries = [] →
    processFolder p startT endT (.ok entries) os fs0
      = ({ fs := fs0
           summary := { totalFiles := 0, successful := 0, failed := 0, errors := []
                        processedFiles := [], startTime := startT
                        endTime := 0, duration := 0 } }, none)
    ∧ runBox p startT endT (.ok entries) os fs0 true
      = .completed
          { fs := fs0
            summary := { totalFiles := 0, successful := 0, failed := 0, errors := []
                         processedFiles := [], startTime := startT
                         endTime := 0, duration := 0 } } true := by
  intro p startT endT entries os fs0 h
  constructor
  · simp [processFolder, getIWorkFiles, h]
  · simp [runBox, processFolder, getIWorkFiles, h]

/-- Claim C10 witness: the empty-candidate early return instantiated at a
listing holding only a non-candidate image entry. -/
theorem c10_empty_listing_early_return_witness :
    getIWorkFilesFromEntries [entryImage] = []
    ∧ processFolder pText 5 9 (.ok [entryImage]) [] FS.empty
      = ({ fs := FS.empty
           summary := { totalFiles := 0, successful := 0, failed := 0, errors := []
                        processedFiles := [], startTime := 5
                        endTime := 0, duration := 0 } }, none) :=
  ⟨by decide,
   (c10_empty_listing_early_return pText 5 9 [entryImage] [] FS.empty (by decide)).1⟩
